import Mathlib

/-!
Shallow embedding of `hphp/hack/src/rupro/hackrs/folded_decl_provider/inherit.rs`:
the folded-declaration inheritance core of the Hack type checker. The data model
(`FoldedElement`, `ClassConst`, `TypeConst`, `SubstContext`, `Constructor`,
`ShallowClass`, `FoldedClass`) and the two components (the `Inherited` aggregate
with its per-category merge rules, and the `MemberFolder` orchestration in
`Inherited.make`) are translated function by function from the Rust source.
Insertion-ordered maps (`indexmap::IndexMap`) are embedded as association lists
where insertion on an occupied key replaces the value in place and insertion on
a vacant key appends at the end, matching `IndexMap` semantics.
-/

set_option autoImplicit false

namespace Inherit

abbrev TypeName := String
abbrev MethodName := String
abbrev PropName := String
abbrev ClassConstName := String
abbrev TypeConstName := String

/-- Insertion-ordered map, embedded as an association list. -/
abbrev IndexMap (K V : Type) := List (K × V)

/-- `IndexMap` key lookup (first matching key wins; maps never hold duplicate keys). -/
def lookupIM {K V : Type} [DecidableEq K] : IndexMap K V → K → Option V
  | [], _ => none
  | (k, v) :: rest, key => if k = key then some v else lookupIM rest key

/-- `IndexMap::insert`: replace in place when the key is occupied, append when vacant. -/
def insertIM {K V : Type} [DecidableEq K] : IndexMap K V → K → V → IndexMap K V
  | [], key, val => [(key, val)]
  | (k, v) :: rest, key, val =>
      if k = key then (key, val) :: rest else (k, v) :: insertIM rest key val

/-- `IndexMap::extend`: left-to-right insertion of every pair of `other`. -/
def extendIM {K V : Type} [DecidableEq K] (m other : IndexMap K V) : IndexMap K V :=
  other.foldl (fun acc kv => insertIM acc kv.1 kv.2) m

/-- `values_mut().for_each`: rewrite every value in place. -/
def mapValsIM {K V : Type} (f : V → V) (m : IndexMap K V) : IndexMap K V :=
  m.map (fun kv => (kv.1, f kv.2))

/-- Generic-parameter abstraction marker (`ty::decl::Abstraction`). -/
inductive Abstraction : Type
  | AbstractK
  | ConcreteK
deriving DecidableEq

/-- `ty::decl::ClassishKind`: the closed variant of class-like declarations. -/
inductive ClassishKind : Type
  | Cclass (a : Abstraction)
  | Cinterface
  | Ctrait
  | Cenum
  | CenumClass (a : Abstraction)
deriving DecidableEq

/-- A type argument, embedded as an opaque token: the fold never inspects a type
argument's structure, it only zips the arguments with generic parameters and
forwards the resulting substitution to the external substitution engine. -/
abbrev TyArg := String

/-- A declared type reference (`DeclTy`); `unwrap_class_type` succeeds exactly on
the class-type constructor, yielding the referenced name and type arguments. -/
inductive DeclTy : Type
  | classTy (name : TypeName) (targs : List TyArg)
  | nonClassTy
deriving DecidableEq

/-- `DeclTy::unwrap_class_type` (the reason component is irrelevant here). -/
def DeclTy.unwrap_class_type : DeclTy → Option (TypeName × List TyArg)
  | .classTy name targs => some (name, targs)
  | .nonClassTy => none

/-- `Decl_subst`: mapping from generic parameter names to type arguments. -/
abbrev Subst := List (TypeName × TyArg)

/-- `Subst::new(tparams, tyl)`: pair up declared parameters with supplied arguments. -/
def Subst.new (tparams : List TypeName) (tyl : List TyArg) : Subst :=
  tparams.zip tyl

/-- Member visibility (`CeVisibility`): public, or private/protected owned by a type. -/
inductive CeVisibility : Type
  | VPublic
  | VPrivate (owner : TypeName)
  | VProtected (owner : TypeName)
deriving DecidableEq

/-- One folded member (`FoldedElement`): visibility plus the flags the fold consults. -/
structure FoldedElement : Type where
  visibility : CeVisibility
  is_abstract : Bool
  is_synthesized : Bool
  is_superfluous_override : Bool
  is_lsb : Bool
  xhp_attr : Option Unit
deriving DecidableEq

/-- `ClassConstKind`: abstract (optionally carrying a default) or concrete. -/
inductive ClassConstKind : Type
  | CCAbstract (has_default : Bool)
  | CCConcrete
deriving DecidableEq

/-- A class constant (`ClassConst`): its kind, synthesized flag and declared type. -/
structure ClassConst : Type where
  is_synthesized : Bool
  kind : ClassConstKind
  ty : DeclTy
deriving DecidableEq

/-- `AbstractTypeconst`: an abstract type constant, optionally carrying a default. -/
structure AbstractTypeconst : Type where
  default : Option DeclTy
deriving DecidableEq

/-- `Typeconst`: the definition of a type constant, abstract or concrete. -/
inductive Typeconst : Type
  | TCAbstract (a : AbstractTypeconst)
  | TCConcrete (ty : DeclTy)
deriving DecidableEq

/-- A type constant (`TypeConst`): definition, enforceability marker, synthesized flag. -/
structure TypeConst : Type where
  kind : Typeconst
  enforceable : Bool
  is_synthesized : Bool
deriving DecidableEq

def TypeConst.is_enforceable (tc : TypeConst) : Bool := tc.enforceable

/-- `SubstContext`: substitution recorded per ancestor name, the class context it
was computed in, and whether it arrived via a required-extends relationship. -/
structure SubstContext : Type where
  subst : Subst
  class_context : TypeName
  from_req_extends : Bool
deriving DecidableEq

def SubstContext.set_from_req_extends (sc : SubstContext) (b : Bool) : SubstContext :=
  { sc with from_req_extends := b }

/-- Constructor consistency marker (`ConsistentKind`). -/
inductive ConsistentKind : Type
  | Inconsistent
  | ConsistentConstruct
  | FinalClass
deriving DecidableEq

/-- Modelled from the spec: `ConsistentKind::coalesce` lives in the `ty` crate,
outside this repository slice. The spec defines it as the combination where
"inconsistent" only results if both inputs are inconsistent and the
final/consistent markers win otherwise. -/
def ConsistentKind.coalesce : ConsistentKind → ConsistentKind → ConsistentKind
  | .Inconsistent, y => y
  | x, _ => x

/-- A folded constructor (`Constructor`): optional element plus consistency marker. -/
structure Constructor : Type where
  elt : Option FoldedElement
  consistency : ConsistentKind
deriving DecidableEq

/-- `Pos`, used by the fold only through `is_hhi` (builtin/hhi ancestor detection). -/
structure Pos : Type where
  is_hhi : Bool
deriving DecidableEq

/-- Enum metadata of a shallow class; the fold reads only the `includes` list. -/
structure EnumType : Type where
  includes : List DeclTy
deriving DecidableEq

/-- The child's not-yet-folded declaration (`ShallowClass`), restricted to the
fields `inherit.rs` reads. `extends_` embeds the `extends` field (a Lean keyword). -/
structure ShallowClass : Type where
  name : TypeName
  kind : ClassishKind
  extends_ : List DeclTy
  implements : List DeclTy
  uses : List DeclTy
  req_extends : List DeclTy
  req_implements : List DeclTy
  xhp_attr_uses : List DeclTy
  enum_type : Option EnumType
deriving DecidableEq

/-- An ancestor's already-folded declaration (`FoldedClass`), restricted to the
fields `inherit.rs` reads. -/
structure FoldedClass : Type where
  name : TypeName
  kind : ClassishKind
  pos : Pos
  tparams : List TypeName
  substs : IndexMap TypeName SubstContext
  props : IndexMap PropName FoldedElement
  static_props : IndexMap PropName FoldedElement
  methods : IndexMap MethodName FoldedElement
  static_methods : IndexMap MethodName FoldedElement
  constructor : Constructor
  consts : IndexMap ClassConstName ClassConst
  type_consts : IndexMap TypeConstName TypeConst
deriving DecidableEq

/-- The folded aggregate (`Inherited`). -/
structure Inherited : Type where
  substs : IndexMap TypeName SubstContext
  props : IndexMap PropName FoldedElement
  static_props : IndexMap PropName FoldedElement
  methods : IndexMap MethodName FoldedElement
  static_methods : IndexMap MethodName FoldedElement
  constructor : Constructor
  consts : IndexMap ClassConstName ClassConst
  type_consts : IndexMap TypeConstName TypeConst
deriving DecidableEq

/-- `Inherited::default()`: all maps empty, constructor `(None, Inconsistent)`. -/
def Inherited.default : Inherited where
  substs := []
  props := []
  static_props := []
  methods := []
  static_methods := []
  constructor := ⟨none, ConsistentKind.Inconsistent⟩
  consts := []
  type_consts := []

/-- `Inherited::should_keep_old_sig`: keep the old signature when the old one is
concrete and the new one abstract, or when abstractness is equal, the old one is
not synthesized and the new one is. -/
def Inherited.should_keep_old_sig (new_sig old_sig : FoldedElement) : Bool :=
  (!old_sig.is_abstract && new_sig.is_abstract)
    || (old_sig.is_abstract == new_sig.is_abstract
        && !old_sig.is_synthesized
        && new_sig.is_synthesized)

/-- `Inherited::add_constructor`. -/
def Inherited.add_constructor (self : Inherited) (constructor : Constructor) : Inherited :=
  let elt : Option FoldedElement :=
    match constructor.elt, self.constructor.elt with
    | none, self_ctor => self_ctor
    | some other_ctor, some self_ctor =>
        if Inherited.should_keep_old_sig other_ctor self_ctor then some self_ctor
        else constructor.elt
    | some _, none => constructor.elt
  { self with
      constructor :=
        ⟨elt, ConsistentKind.coalesce self.constructor.consistency constructor.consistency⟩ }

/-- One step of `Inherited::add_substs`: insert when vacant; when occupied, replace
only when the existing context came via required-extends and the incoming one did not. -/
def Inherited.add_subst (substs : IndexMap TypeName SubstContext)
    (key : TypeName) (new_sc : SubstContext) : IndexMap TypeName SubstContext :=
  match lookupIM substs key with
  | none => insertIM substs key new_sc
  | some old_sc =>
      if old_sc.from_req_extends && !new_sc.from_req_extends then
        insertIM substs key new_sc
      else
        substs

/-- `Inherited::add_substs`. -/
def Inherited.add_substs (self : Inherited)
    (other_substs : IndexMap TypeName SubstContext) : Inherited :=
  { self with
      substs := other_substs.foldl (fun m kv => Inherited.add_subst m kv.1 kv.2) self.substs }

/-- `Inherited::add_method`: insert when vacant; when occupied, replace (clearing
the superfluous-override flag) unless the old signature should be kept. -/
def Inherited.add_method (methods : IndexMap MethodName FoldedElement)
    (kv : MethodName × FoldedElement) : IndexMap MethodName FoldedElement :=
  match lookupIM methods kv.1 with
  | none => insertIM methods kv.1 kv.2
  | some old =>
      if !Inherited.should_keep_old_sig kv.2 old then
        insertIM methods kv.1 { kv.2 with is_superfluous_override := false }
      else
        methods

/-- `Inherited::add_methods`. -/
def Inherited.add_methods (self : Inherited)
    (other_methods : IndexMap MethodName FoldedElement) : Inherited :=
  { self with methods := other_methods.foldl Inherited.add_method self.methods }

/-- `Inherited::add_static_methods`. -/
def Inherited.add_static_methods (self : Inherited)
    (other_static_methods : IndexMap MethodName FoldedElement) : Inherited :=
  { self with
      static_methods := other_static_methods.foldl Inherited.add_method self.static_methods }

/-- `Inherited::add_props`: plain `extend`, later insertion overwrites. -/
def Inherited.add_props (self : Inherited)
    (other_props : IndexMap PropName FoldedElement) : Inherited :=
  { self with props := extendIM self.props other_props }

/-- `Inherited::add_static_props`. -/
def Inherited.add_static_props (self : Inherited)
    (other_static_props : IndexMap PropName FoldedElement) : Inherited :=
  { self with static_props := extendIM self.static_props other_static_props }

/-- One step of `Inherited::add_consts`: insert when vacant; when occupied, a
synthesized constant never replaces a non-synthesized one, an abstract constant
never replaces a concrete one, and otherwise the incoming constant replaces. -/
def Inherited.add_const (consts : IndexMap ClassConstName ClassConst)
    (name : ClassConstName) (new_const : ClassConst) : IndexMap ClassConstName ClassConst :=
  match lookupIM consts name with
  | none => insertIM consts name new_const
  | some old_const =>
      match new_const.is_synthesized, old_const.is_synthesized,
            new_const.kind, old_const.kind with
      | true, false, _, _ => consts
      | _, _, ClassConstKind.CCAbstract _, ClassConstKind.CCConcrete => consts
      | _, _, _, _ => insertIM consts name new_const

/-- `Inherited::add_consts`. -/
def Inherited.add_consts (self : Inherited)
    (other_consts : IndexMap ClassConstName ClassConst) : Inherited :=
  { self with
      consts := other_consts.foldl (fun m kv => Inherited.add_const m kv.1 kv.2) self.consts }

/-- One step of `Inherited::add_type_consts`: insert when vacant. When occupied,
first propagate enforceability from the incoming constant onto the existing entry;
then keep the existing definition when it is concrete versus abstract, or
abstract-with-default versus abstract-without-default; otherwise replace with the
incoming constant, which first inherits the existing entry's enforceability when
it lacks its own. -/
def Inherited.add_type_const (type_consts : IndexMap TypeConstName TypeConst)
    (name : TypeConstName) (new_const : TypeConst) : IndexMap TypeConstName TypeConst :=
  match lookupIM type_consts name with
  | none => insertIM type_consts name new_const
  | some old_const0 =>
      let step1 : IndexMap TypeConstName TypeConst × TypeConst :=
        if new_const.is_enforceable && !old_const0.is_enforceable then
          let upd := { old_const0 with enforceable := new_const.enforceable }
          (insertIM type_consts name upd, upd)
        else
          (type_consts, old_const0)
      let type_consts1 := step1.1
      let old_const := step1.2
      match old_const.kind, new_const.kind with
      | Typeconst.TCConcrete _, Typeconst.TCAbstract _ => type_consts1
      | Typeconst.TCAbstract ⟨some _⟩, Typeconst.TCAbstract ⟨none⟩ => type_consts1
      | _, _ =>
          let new_const1 :=
            if old_const.is_enforceable && !new_const.is_enforceable then
              { new_const with enforceable := old_const.enforceable }
            else
              new_const
          insertIM type_consts1 name new_const1

/-- `Inherited::add_type_consts`. -/
def Inherited.add_type_consts (self : Inherited)
    (other_type_consts : IndexMap TypeConstName TypeConst) : Inherited :=
  { self with
      type_consts :=
        other_type_consts.foldl (fun m kv => Inherited.add_type_const m kv.1 kv.2)
          self.type_consts }

/-- `Inherited::add_inherited`: absorb another aggregate, category by category, in
the source's order. -/
def Inherited.add_inherited (self : Inherited) (other : Inherited) : Inherited :=
  ((((((((self.add_substs other.substs).add_props other.props).add_static_props
      other.static_props).add_methods other.methods).add_static_methods
      other.static_methods).add_constructor other.constructor).add_consts
      other.consts).add_type_consts other.type_consts)

def FoldedElement.set_is_synthesized (e : FoldedElement) (b : Bool) : FoldedElement :=
  { e with is_synthesized := b }

def ClassConst.set_is_synthesized (c : ClassConst) (b : Bool) : ClassConst :=
  { c with is_synthesized := b }

def TypeConst.set_is_synthesized (c : TypeConst) (b : Bool) : TypeConst :=
  { c with is_synthesized := b }

/-- `Inherited::mark_as_synthesized`: flip every member's synthesized flag (and
every substitution context's `from_req_extends` flag) to true. -/
def Inherited.mark_as_synthesized (self : Inherited) : Inherited where
  substs := mapValsIM (fun s => s.set_from_req_extends true) self.substs
  props := mapValsIM (fun p => p.set_is_synthesized true) self.props
  static_props := mapValsIM (fun p => p.set_is_synthesized true) self.static_props
  methods := mapValsIM (fun m => m.set_is_synthesized true) self.methods
  static_methods := mapValsIM (fun m => m.set_is_synthesized true) self.static_methods
  constructor :=
    ⟨self.constructor.elt.map (fun e => e.set_is_synthesized true),
      self.constructor.consistency⟩
  consts := mapValsIM (fun c => c.set_is_synthesized true) self.consts
  type_consts := mapValsIM (fun c => c.set_is_synthesized true) self.type_consts

/-- `DeclName`, restricted to the variant this file constructs (`DeclName::Type`). -/
inductive DeclName : Type
  | TypeD (n : TypeName)
deriving DecidableEq

/-- `DependencyName`, restricted to the variant this file constructs
(`DependencyName::Constructor`). -/
inductive DependencyName : Type
  | Constructor (n : TypeName)
deriving DecidableEq

/-- One recorded dependency edge: the arguments of an `add_dependency` call. -/
abbrev DepEdge := DeclName × DependencyName

/-- Modelled from the spec: the substitution engine (`Substitution::
instantiate_class_const`) is an external collaborator that "instantiates a class
constant's or type constant's declared type; treated as a pure function with no
side effects". Its term-level action is outside this repository slice, so it is
received as the function `substF` and applied to the constant's declared type. -/
def instantiate_class_const (substF : Subst → DeclTy → DeclTy) (sig : Subst)
    (cc : ClassConst) : ClassConst :=
  { cc with ty := substF sig cc.ty }

/-- Modelled from the spec: `Substitution::instantiate_type_const`, the same
external collaborator applied to the types embedded in a type constant's
definition (it does not change abstractness, default presence, enforceability or
the synthesized flag). -/
def instantiate_type_const (substF : Subst → DeclTy → DeclTy) (sig : Subst)
    (tc : TypeConst) : TypeConst :=
  { tc with
      kind :=
        match tc.kind with
        | .TCAbstract a => .TCAbstract ⟨a.default.map (substF sig)⟩
        | .TCConcrete t => .TCConcrete (substF sig t) }

/-- `is_not_private` (inside `members_from_class`): private members are kept only
when they carry the lsb flag. -/
def is_not_private (elt : FoldedElement) : Bool :=
  match elt.visibility with
  | .VPrivate _ => elt.is_lsb
  | _ => true

/-- `chown` (inside `members_from_class`): private members become owned by
`owner`; non-synthesized protected members become owned by `owner`; everything
else is unchanged. -/
def chown (elt : FoldedElement) (owner : TypeName) : FoldedElement :=
  match elt.visibility with
  | .VPrivate _ => { elt with visibility := .VPrivate owner }
  | .VProtected _ =>
      if !elt.is_synthesized then { elt with visibility := .VProtected owner }
      else elt
  | _ => elt

/-- `MemberFolder::members_from_class`: extract a parent's contribution. A
non-class reference or a missing ancestor entry contributes an empty aggregate.
Otherwise constants and type constants are substituted, members are taken with
kind-specific filtering/ownership rewriting, the ancestor's substs gain an entry
for the ancestor itself, its constructor is propagated verbatim, and for a
non-hhi ancestor one dependency edge from the child type to the ancestor's
constructor is registered (a registrar failure aborts with that error). -/
def members_from_class {E : Type} (substF : Subst → DeclTy → DeclTy)
    (reg : DeclName → DependencyName → Except E Unit)
    (child : ShallowClass) (parents : IndexMap TypeName FoldedClass)
    (parent_ty : DeclTy) : Except E (List DepEdge × Inherited) :=
  match parent_ty.unwrap_class_type with
  | none => Except.ok ([], Inherited.default)
  | some (pname, parent_tyl) =>
    match lookupIM parents pname with
    | none => Except.ok ([], Inherited.default)
    | some parent_folded_decl =>
      let sig := Subst.new parent_folded_decl.tparams parent_tyl
      let consts :=
        parent_folded_decl.consts.map
          (fun kv => (kv.1, instantiate_class_const substF sig kv.2))
      let type_consts :=
        parent_folded_decl.type_consts.map
          (fun kv => (kv.1, instantiate_type_const substF sig kv.2))
      let parent_inh : Inherited :=
        match parent_folded_decl.kind with
        | .Ctrait =>
          { Inherited.default with
              consts := consts
              type_consts := type_consts
              props :=
                parent_folded_decl.props.map (fun kv => (kv.1, chown kv.2 child.name))
              static_props :=
                parent_folded_decl.static_props.map
                  (fun kv => (kv.1, chown kv.2 child.name))
              methods :=
                parent_folded_decl.methods.map (fun kv => (kv.1, chown kv.2 child.name))
              static_methods :=
                parent_folded_decl.static_methods.map
                  (fun kv => (kv.1, chown kv.2 child.name)) }
        | .Cclass _ | .Cinterface =>
          { Inherited.default with
              consts := consts
              type_consts := type_consts
              props := parent_folded_decl.props.filter (fun kv => is_not_private kv.2)
              static_props :=
                parent_folded_decl.static_props.filter (fun kv => is_not_private kv.2)
              methods := parent_folded_decl.methods.filter (fun kv => is_not_private kv.2)
              static_methods :=
                parent_folded_decl.static_methods.filter (fun kv => is_not_private kv.2) }
        | .Cenum | .CenumClass _ =>
          { Inherited.default with
              consts := consts
              type_consts := type_consts
              props := parent_folded_decl.props
              static_props := parent_folded_decl.static_props
              methods := parent_folded_decl.methods
              static_methods := parent_folded_decl.static_methods }
      let substs :=
        insertIM parent_folded_decl.substs parent_folded_decl.name
          ⟨sig, child.name, false⟩
      let constructor := parent_folded_decl.constructor
      if parent_folded_decl.pos.is_hhi then
        Except.ok ([], { parent_inh with substs := substs, constructor := constructor })
      else
        match reg (DeclName.TypeD child.name)
            (DependencyName.Constructor parent_folded_decl.name) with
        | Except.error e => Except.error e
        | Except.ok _ =>
          Except.ok
            ([(DeclName.TypeD child.name,
               DependencyName.Constructor parent_folded_decl.name)],
             { parent_inh with substs := substs, constructor := constructor })

/-- `MemberFolder::class_constants_from_class`: the same ancestor lookup and
substitution, producing only the constants and type-constants maps; it never
invokes the dependency registrar and never fails. -/
def class_constants_from_class {E : Type} (substF : Subst → DeclTy → DeclTy)
    (parents : IndexMap TypeName FoldedClass) (ty : DeclTy) :
    Except E (List DepEdge × Inherited) :=
  match ty.unwrap_class_type with
  | none => Except.ok ([], Inherited.default)
  | some (pname, tyl) =>
    match lookupIM parents pname with
    | none => Except.ok ([], Inherited.default)
    | some cls =>
      let sig := Subst.new cls.tparams tyl
      Except.ok
        ([],
         { Inherited.default with
             consts :=
               cls.consts.map (fun kv => (kv.1, instantiate_class_const substF sig kv.2))
             type_consts :=
               cls.type_consts.map
                 (fun kv => (kv.1, instantiate_type_const substF sig kv.2)) })

/-- `MemberFolder::xhp_attrs_from_class`: only the ancestor's properties carrying
XHP-attribute metadata are taken; it never invokes the dependency registrar and
never fails. -/
def xhp_attrs_from_class {E : Type} (parents : IndexMap TypeName FoldedClass)
    (ty : DeclTy) : Except E (List DepEdge × Inherited) :=
  match ty.unwrap_class_type with
  | none => Except.ok ([], Inherited.default)
  | some (pname, _tyl) =>
    match lookupIM parents pname with
    | none => Except.ok ([], Inherited.default)
    | some cls =>
      Except.ok
        ([],
         { Inherited.default with
             props := cls.props.filter (fun kv => kv.2.xhp_attr.isSome) })

/-- The folder's running state: the aggregate under construction plus the trace
of dependency edges registered so far. -/
structure FoldSt : Type where
  members : Inherited
  deps : List DepEdge
deriving DecidableEq

/-- Shared shape of every `add_from_*` loop: extract each type's contribution,
apply `post` (`mark_as_synthesized` for requirements, identity elsewhere), absorb
into the running aggregate; the first extraction error aborts. -/
def foldAbsorb {E : Type} (step : DeclTy → Except E (List DepEdge × Inherited))
    (post : Inherited → Inherited) : FoldSt → List DeclTy → Except E FoldSt
  | st, [] => Except.ok st
  | st, ty :: tys =>
    match step ty with
    | Except.error e => Except.error e
    | Except.ok (deps, inh) =>
        foldAbsorb step post
          ⟨st.members.add_inherited (post inh), st.deps ++ deps⟩ tys

/-- The relationship lists gathered by `MemberFolder::add_from_parents`,
kind-specific: abstract classes and traits gather `implements` then `extends`
(traits additionally `req_implements`); every other kind gathers only `extends`. -/
def parent_tys (child : ShallowClass) : List DeclTy :=
  match child.kind with
  | .Cclass .AbstractK => child.implements ++ child.extends_
  | .Ctrait => child.implements ++ child.extends_ ++ child.req_implements
  | .Cclass _ | .Cinterface | .Cenum | .CenumClass _ => child.extends_

/-- `MemberFolder::add_from_parents`: the gathered list is folded in reverse
declaration order. -/
def add_from_parents {E : Type} (substF : Subst → DeclTy → DeclTy)
    (reg : DeclName → DependencyName → Except E Unit)
    (child : ShallowClass) (parents : IndexMap TypeName FoldedClass)
    (st : FoldSt) : Except E FoldSt :=
  foldAbsorb (members_from_class substF reg child parents) id st (parent_tys child).reverse

/-- `MemberFolder::add_from_requirements`: each `req_extends` contribution is
marked as synthesized before absorption. -/
def add_from_requirements {E : Type} (substF : Subst → DeclTy → DeclTy)
    (reg : DeclName → DependencyName → Except E Unit)
    (child : ShallowClass) (parents : IndexMap TypeName FoldedClass)
    (st : FoldSt) : Except E FoldSt :=
  foldAbsorb (members_from_class substF reg child parents)
    Inherited.mark_as_synthesized st child.req_extends

/-- `MemberFolder::add_from_traits`. -/
def add_from_traits {E : Type} (substF : Subst → DeclTy → DeclTy)
    (reg : DeclName → DependencyName → Except E Unit)
    (child : ShallowClass) (parents : IndexMap TypeName FoldedClass)
    (st : FoldSt) : Except E FoldSt :=
  foldAbsorb (members_from_class substF reg child parents) id st child.uses

/-- `MemberFolder::add_from_xhp_attr_uses`. -/
def add_from_xhp_attr_uses {E : Type} (parents : IndexMap TypeName FoldedClass)
    (child : ShallowClass) (st : FoldSt) : Except E FoldSt :=
  foldAbsorb (xhp_attrs_from_class parents) id st child.xhp_attr_uses

/-- `MemberFolder::add_from_interface_constants` (over `req_implements`). -/
def add_from_interface_constants {E : Type} (substF : Subst → DeclTy → DeclTy)
    (parents : IndexMap TypeName FoldedClass) (child : ShallowClass)
    (st : FoldSt) : Except E FoldSt :=
  foldAbsorb (class_constants_from_class substF parents) id st child.req_implements

/-- `MemberFolder::add_from_included_enums_constants` (over the enum metadata's
`includes` list; absent metadata contributes nothing). -/
def add_from_included_enums_constants {E : Type} (substF : Subst → DeclTy → DeclTy)
    (parents : IndexMap TypeName FoldedClass) (child : ShallowClass)
    (st : FoldSt) : Except E FoldSt :=
  match child.enum_type with
  | none => Except.ok st
  | some et => foldAbsorb (class_constants_from_class substF parents) id st et.includes

/-- `MemberFolder::add_from_implements_constants` (over `implements`). -/
def add_from_implements_constants {E : Type} (substF : Subst → DeclTy → DeclTy)
    (parents : IndexMap TypeName FoldedClass) (child : ShallowClass)
    (st : FoldSt) : Except E FoldSt :=
  foldAbsorb (class_constants_from_class substF parents) id st child.implements

/-- `Inherited::make`, instrumented with the trace of registered dependency
edges: the seven absorption steps in the source's order, starting from the empty
aggregate. -/
def Inherited.make_traced {E : Type} (substF : Subst → DeclTy → DeclTy)
    (reg : DeclName → DependencyName → Except E Unit)
    (child : ShallowClass) (parents : IndexMap TypeName FoldedClass) :
    Except E FoldSt := do
  let st1 ← add_from_parents substF reg child parents ⟨Inherited.default, []⟩
  let st2 ← add_from_requirements substF reg child parents st1
  let st3 ← add_from_traits substF reg child parents st2
  let st4 ← add_from_xhp_attr_uses parents child st3
  let st5 ← add_from_interface_constants substF parents child st4
  let st6 ← add_from_included_enums_constants substF parents child st5
  let st7 ← add_from_implements_constants substF parents child st6
  Except.ok st7

/-- `Inherited::make`: the folder's finished aggregate. -/
def Inherited.make {E : Type} (substF : Subst → DeclTy → DeclTy)
    (reg : DeclName → DependencyName → Except E Unit)
    (child : ShallowClass) (parents : IndexMap TypeName FoldedClass) :
    Except E Inherited :=
  (Inherited.make_traced substF reg child parents).map FoldSt.members

/-! ## Basic `IndexMap` lemmas -/

theorem lookupIM_insertIM {K V : Type} [DecidableEq K] (m : IndexMap K V) (k : K) (v : V) :
    lookupIM (insertIM m k v) k = some v := by
  induction m with
  | nil => simp [insertIM, lookupIM]
  | cons kv rest ih =>
      by_cases h : kv.1 = k
      · simp [insertIM, lookupIM, h]
      · simp [insertIM, lookupIM, h, ih]

theorem insertIM_self {K V : Type} [DecidableEq K] (m : IndexMap K V) (k : K) (v : V)
    (h : lookupIM m k = some v) : insertIM m k v = m := by
  induction m with
  | nil => simp [lookupIM] at h
  | cons kv rest ih =>
      obtain ⟨k1, v1⟩ := kv
      by_cases hk : k1 = k
      · subst hk
        simp [lookupIM] at h
        simp [insertIM, h]
      · simp [lookupIM, hk] at h
        simp [insertIM, hk, ih h]

theorem insertIM_insertIM {K V : Type} [DecidableEq K] (m : IndexMap K V) (k : K) (a b : V) :
    insertIM (insertIM m k a) k b = insertIM m k b := by
  induction m with
  | nil => simp [insertIM]
  | cons kv rest ih =>
      by_cases hk : kv.1 = k
      · simp [insertIM, hk]
      · simp [insertIM, hk, ih]

/-! ## C1 — the override-priority predicate -/

/-- C1: `should_keep_old_sig new old` holds exactly when old is concrete and new
abstract, or abstractness is equal, old is not synthesized and new is; the
abstractness rule is checked first and wins when the two rules conflict; and the
very same predicate decides method, static-method and constructor-element
conflicts on occupied entries. -/
theorem override_priority_predicate_spec (old new : FoldedElement) :
    (Inherited.should_keep_old_sig new old = true ↔
      ((old.is_abstract = false ∧ new.is_abstract = true) ∨
        (old.is_abstract = new.is_abstract ∧ old.is_synthesized = false ∧
          new.is_synthesized = true)))
    ∧ (old.is_abstract = true → new.is_abstract = false →
        Inherited.should_keep_old_sig new old = false)
    ∧ (old.is_abstract = false → new.is_abstract = true →
        Inherited.should_keep_old_sig new old = true)
    ∧ (∀ (methods : IndexMap MethodName FoldedElement) (k : MethodName),
        lookupIM methods k = some old →
        Inherited.add_method methods (k, new) =
          (if Inherited.should_keep_old_sig new old then methods
           else insertIM methods k { new with is_superfluous_override := false }))
    ∧ (∀ (self : Inherited) (k : MethodName),
        lookupIM self.methods k = some old →
        (self.add_methods [(k, new)]).methods =
          (if Inherited.should_keep_old_sig new old then self.methods
           else insertIM self.methods k { new with is_superfluous_override := false }))
    ∧ (∀ (self : Inherited) (k : MethodName),
        lookupIM self.static_methods k = some old →
        (self.add_static_methods [(k, new)]).static_methods =
          (if Inherited.should_keep_old_sig new old then self.static_methods
           else insertIM self.static_methods k { new with is_superfluous_override := false }))
    ∧ (∀ (self : Inherited) (ck ck2 : ConsistentKind),
        self.constructor = ⟨some old, ck⟩ →
        (self.add_constructor ⟨some new, ck2⟩).constructor.elt =
          (if Inherited.should_keep_old_sig new old then some old else some new)) := by
  refine ⟨?_, ?_, ?_, ?_, ?_, ?_, ?_⟩
  · obtain ⟨v1, a1, s1, f1, l1, x1⟩ := old
    obtain ⟨v2, a2, s2, f2, l2, x2⟩ := new
    cases a1 <;> cases a2 <;> cases s1 <;> cases s2 <;>
      simp [Inherited.should_keep_old_sig]
  · intro h1 h2
    simp [Inherited.should_keep_old_sig, h1, h2]
  · intro h1 h2
    simp [Inherited.should_keep_old_sig, h1, h2]
  · intro methods k h
    cases hk : Inherited.should_keep_old_sig new old <;>
      simp [Inherited.add_method, h, hk]
  · intro self k h
    cases hk : Inherited.should_keep_old_sig new old <;>
      simp [Inherited.add_methods, List.foldl, Inherited.add_method, h, hk]
  · intro self k h
    cases hk : Inherited.should_keep_old_sig new old <;>
      simp [Inherited.add_static_methods, List.foldl, Inherited.add_method, h, hk]
  · intro self ck ck2 h
    cases hk : Inherited.should_keep_old_sig new old <;>
      simp [Inherited.add_constructor, h, hk]

/-- C1 witness: at a concrete occupied entry, an abstract synthesized signature
does not displace a concrete genuine one. -/
theorem override_priority_predicate_spec_witness :
    Inherited.add_method
        [(("f" : MethodName),
          (⟨CeVisibility.VPublic, false, false, false, false, none⟩ : FoldedElement))]
        ("f", ⟨CeVisibility.VPublic, true, true, false, false, none⟩) =
      [(("f" : MethodName),
        (⟨CeVisibility.VPublic, false, false, false, false, none⟩ : FoldedElement))] := by
  have h :=
    (override_priority_predicate_spec
        ⟨CeVisibility.VPublic, false, false, false, false, none⟩
        ⟨CeVisibility.VPublic, true, true, false, false, none⟩).2.2.2.1
      [(("f" : MethodName),
        (⟨CeVisibility.VPublic, false, false, false, false, none⟩ : FoldedElement))]
      "f" (by decide)
  rw [h]
  decide

/-! ## C4 — class-constant merge rules -/

/-- C4: absorbing a class constant inserts on a vacant name; on an occupied name a
synthesized constant never replaces a non-synthesized one, an abstract constant
never replaces a concrete one, every other case replaces; and the two
protections hold under either order of absorption. -/
theorem add_consts_merge_rules (consts : IndexMap ClassConstName ClassConst)
    (name : ClassConstName) (newc : ClassConst) :
    (lookupIM consts name = none →
        Inherited.add_const consts name newc = insertIM consts name newc)
    ∧ (∀ oldc, lookupIM consts name = some oldc →
        ((newc.is_synthesized = true → oldc.is_synthesized = false →
            Inherited.add_const consts name newc = consts)
          ∧ (∀ d, newc.kind = ClassConstKind.CCAbstract d →
              oldc.kind = ClassConstKind.CCConcrete →
              Inherited.add_const consts name newc = consts)
          ∧ (¬(newc.is_synthesized = true ∧ oldc.is_synthesized = false) →
              ¬((∃ d, newc.kind = ClassConstKind.CCAbstract d) ∧
                  oldc.kind = ClassConstKind.CCConcrete) →
              Inherited.add_const consts name newc = insertIM consts name newc)))
    ∧ (∀ self : Inherited,
        (self.add_consts [(name, newc)]).consts = Inherited.add_const self.consts name newc)
    ∧ (∀ c1 c2 : ClassConst,
        (c2.is_synthesized = true → c1.is_synthesized = false →
          Inherited.add_const (Inherited.add_const [] name c1) name c2 = [(name, c1)])
        ∧ (∀ d, c2.kind = ClassConstKind.CCAbstract d →
            c1.kind = ClassConstKind.CCConcrete →
            Inherited.add_const (Inherited.add_const [] name c1) name c2 = [(name, c1)])) := by
  refine ⟨?_, ?_, ?_, ?_⟩
  · intro h
    simp [Inherited.add_const, h]
  · intro oldc h
    refine ⟨?_, ?_, ?_⟩
    · intro h1 h2
      simp [Inherited.add_const, h, h1, h2]
    · intro d h1 h2
      cases hs : newc.is_synthesized <;> cases ht : oldc.is_synthesized <;>
        simp [Inherited.add_const, h, h1, h2, hs, ht]
    · intro h1 h2
      cases hs : newc.is_synthesized <;> cases ht : oldc.is_synthesized <;>
        cases hk : newc.kind <;> cases hl : oldc.kind <;>
        simp_all [Inherited.add_const, h]
  · intro self
    rfl
  · intro c1 c2
    constructor
    · intro h1 h2
      simp [Inherited.add_const, lookupIM, insertIM, h1, h2]
    · intro d h1 h2
      cases hs : c2.is_synthesized <;> cases ht : c1.is_synthesized <;>
        simp [Inherited.add_const, lookupIM, insertIM, h1, h2, hs, ht]

/-- C4 witness: a concrete non-synthesized constant survives an incoming
synthesized one, under either order of absorption. -/
theorem add_consts_merge_rules_witness :
    Inherited.add_const
        [(("FOO" : ClassConstName),
          (⟨false, ClassConstKind.CCConcrete, DeclTy.nonClassTy⟩ : ClassConst))]
        "FOO" ⟨true, ClassConstKind.CCAbstract false, DeclTy.nonClassTy⟩ =
      [(("FOO" : ClassConstName),
        (⟨false, ClassConstKind.CCConcrete, DeclTy.nonClassTy⟩ : ClassConst))] := by
  have h :=
    ((add_consts_merge_rules
          [(("FOO" : ClassConstName),
            (⟨false, ClassConstKind.CCConcrete, DeclTy.nonClassTy⟩ : ClassConst))]
          "FOO" ⟨true, ClassConstKind.CCAbstract false, DeclTy.nonClassTy⟩).2.1
        ⟨false, ClassConstKind.CCConcrete, DeclTy.nonClassTy⟩ (by decide)).1
      rfl rfl
  exact h

/-! ## C6 — substitution-context merge rules -/

/-- C6: a substitution context recorded via required-extends is replaced by one
for the same ancestor name that did not, under either order of absorption, while
an existing non-required context is never replaced. -/
theorem add_substs_req_extends_rules (substs : IndexMap TypeName SubstContext)
    (k : TypeName) (nsc : SubstContext) :
    (lookupIM substs k = none →
        Inherited.add_subst substs k nsc = insertIM substs k nsc)
    ∧ (∀ osc, lookupIM substs k = some osc →
        ((osc.from_req_extends = true → nsc.from_req_extends = false →
            Inherited.add_subst substs k nsc = insertIM substs k nsc)
          ∧ (osc.from_req_extends = false → Inherited.add_subst substs k nsc = substs)
          ∧ (nsc.from_req_extends = true → Inherited.add_subst substs k nsc = substs)))
    ∧ (∀ self : Inherited,
        (self.add_substs [(k, nsc)]).substs = Inherited.add_subst self.substs k nsc)
    ∧ (∀ s_req s_ext : SubstContext,
        s_req.from_req_extends = true → s_ext.from_req_extends = false →
        (Inherited.add_subst (Inherited.add_subst [] k s_req) k s_ext = [(k, s_ext)]
          ∧ Inherited.add_subst (Inherited.add_subst [] k s_ext) k s_req = [(k, s_ext)])) := by
  refine ⟨?_, ?_, ?_, ?_⟩
  · intro h
    simp [Inherited.add_subst, h]
  · intro osc h
    refine ⟨?_, ?_, ?_⟩
    · intro h1 h2
      simp [Inherited.add_subst, h, h1, h2]
    · intro h1
      simp [Inherited.add_subst, h, h1]
    · intro h1
      simp [Inherited.add_subst, h, h1]
  · intro self
    rfl
  · intro s_req s_ext h1 h2
    constructor
    · simp [Inherited.add_subst, lookupIM, insertIM, h1, h2]
    · simp [Inherited.add_subst, lookupIM, insertIM, h1, h2]

/-- C6 witness: a required-extends context for `Base` loses to a genuine one in
both absorption orders. -/
theorem add_substs_req_extends_rules_witness :
    Inherited.add_subst
        (Inherited.add_subst [] "Base" ⟨[("T", "mixed")], "MyTrait", true⟩)
        "Base" ⟨[("T", "int")], "Child", false⟩ =
      [(("Base" : TypeName), (⟨[("T", "int")], "Child", false⟩ : SubstContext))] := by
  exact
    ((add_substs_req_extends_rules [] "Base"
          ⟨[("T", "int")], "Child", false⟩).2.2.2
        ⟨[("T", "mixed")], "MyTrait", true⟩ ⟨[("T", "int")], "Child", false⟩
        rfl rfl).1

/-! ## C7 — absorbing a constructor with no element -/

/-- C7 counterexample: absorbing a constructor whose element is absent still
coalesces the consistency marker, so the aggregate's constructor is not left
untouched: from `(none, Inconsistent)`, absorbing `(none, ConsistentConstruct)`
yields consistency `ConsistentConstruct`. -/
theorem add_constructor_consistency_changes :
    (Inherited.default.add_constructor
        ⟨none, ConsistentKind.ConsistentConstruct⟩).constructor.consistency =
      ConsistentKind.ConsistentConstruct
    ∧ Inherited.default.constructor.consistency = ConsistentKind.Inconsistent := by
  constructor
  · rfl
  · rfl

/-- C7 (amended): absorbing a constructor whose element is absent leaves the
aggregate's constructor *element* untouched, while the consistency marker is
still coalesced with the incoming one. -/
theorem add_constructor_absent_elt_amended (self : Inherited) (c : Constructor)
    (h : c.elt = none) :
    (self.add_constructor c).constructor.elt = self.constructor.elt
    ∧ (self.add_constructor c).constructor.consistency =
        ConsistentKind.coalesce self.constructor.consistency c.consistency := by
  cases hc : self.constructor.elt <;>
    simp [Inherited.add_constructor, h, hc]

/-- C7 witness: the amended statement at the concrete counterexample input. -/
theorem add_constructor_absent_elt_amended_witness :
    (Inherited.default.add_constructor
        ⟨none, ConsistentKind.ConsistentConstruct⟩).constructor.elt =
      Inherited.default.constructor.elt
    ∧ (Inherited.default.add_constructor
        ⟨none, ConsistentKind.ConsistentConstruct⟩).constructor.consistency =
      ConsistentKind.coalesce Inherited.default.constructor.consistency
        ConsistentKind.ConsistentConstruct :=
  add_constructor_absent_elt_amended Inherited.default
    ⟨none, ConsistentKind.ConsistentConstruct⟩ rfl

/-! ## C5 — type-constant merge rules -/

/-- The definition-level keep rule of `add_type_const` on an occupied entry, as
the spec words it: keep the existing definition when it is concrete and the
incoming abstract, or when it is abstract-with-default and the incoming is
abstract-without-default. -/
def keep_existing_type_const_def : Typeconst → Typeconst → Bool
  | Typeconst.TCConcrete _, Typeconst.TCAbstract _ => true
  | Typeconst.TCAbstract ⟨some _⟩, Typeconst.TCAbstract ⟨none⟩ => true
  | _, _ => false

/-- C5: on an occupied name the winning definition is decided by
`keep_existing_type_const_def` alone, the final entry's enforceability is the
disjunction of both entries' enforceability (enforceability is sticky and is
never lost by a replacement), and on a vacant name the incoming constant is
inserted. -/
theorem add_type_consts_merge_rules (tcs : IndexMap TypeConstName TypeConst)
    (name : TypeConstName) (newc : TypeConst) :
    (lookupIM tcs name = none →
        Inherited.add_type_const tcs name newc = insertIM tcs name newc)
    ∧ (∀ oldc, lookupIM tcs name = some oldc →
        Inherited.add_type_const tcs name newc =
          (if keep_existing_type_const_def oldc.kind newc.kind then
            insertIM tcs name { oldc with enforceable := oldc.enforceable || newc.enforceable }
          else
            insertIM tcs name { newc with enforceable := newc.enforceable || oldc.enforceable }))
    ∧ (∀ oldc, lookupIM tcs name = some oldc →
        ∃ r, lookupIM (Inherited.add_type_const tcs name newc) name = some r
          ∧ r.enforceable = (oldc.enforceable || newc.enforceable)
          ∧ r.kind =
              (if keep_existing_type_const_def oldc.kind newc.kind then oldc.kind
               else newc.kind))
    ∧ (∀ self : Inherited,
        (self.add_type_consts [(name, newc)]).type_consts =
          Inherited.add_type_const self.type_consts name newc) := by
  have hocc : ∀ oldc, lookupIM tcs name = some oldc →
      Inherited.add_type_const tcs name newc =
        (if keep_existing_type_const_def oldc.kind newc.kind then
          insertIM tcs name { oldc with enforceable := oldc.enforceable || newc.enforceable }
        else
          insertIM tcs name { newc with enforceable := newc.enforceable || oldc.enforceable }) := by
    intro oldc h
    obtain ⟨okind, oenf, osyn⟩ := oldc
    obtain ⟨nkind, nenf, nsyn⟩ := newc
    rcases okind with ⟨⟨d1 | _⟩⟩ | t1 <;> rcases nkind with ⟨⟨d2 | _⟩⟩ | t2 <;>
      cases oenf <;> cases nenf <;>
      simp [Inherited.add_type_const, h, keep_existing_type_const_def,
        TypeConst.is_enforceable, insertIM_self _ _ _ h, insertIM_insertIM]
  refine ⟨?_, hocc, ?_, ?_⟩
  · intro h
    simp [Inherited.add_type_const, h]
  · intro oldc h
    rw [hocc oldc h]
    cases hk : keep_existing_type_const_def oldc.kind newc.kind <;>
      simp [lookupIM_insertIM, Bool.or_comm]
  · intro self
    rfl

/-- C5 witness: a non-enforceable concrete definition wins over an enforceable
abstract incoming one, and the surviving entry becomes enforceable. -/
theorem add_type_consts_merge_rules_witness :
    Inherited.add_type_const
        [(("T" : TypeConstName),
          (⟨Typeconst.TCConcrete DeclTy.nonClassTy, false, false⟩ : TypeConst))]
        "T" ⟨Typeconst.TCAbstract ⟨none⟩, true, false⟩ =
      [(("T" : TypeConstName),
        (⟨Typeconst.TCConcrete DeclTy.nonClassTy, true, false⟩ : TypeConst))] := by
  have h :=
    (add_type_consts_merge_rules
        [(("T" : TypeConstName),
          (⟨Typeconst.TCConcrete DeclTy.nonClassTy, false, false⟩ : TypeConst))]
        "T" ⟨Typeconst.TCAbstract ⟨none⟩, true, false⟩).2.1
      ⟨Typeconst.TCConcrete DeclTy.nonClassTy, false, false⟩ rfl
  rw [h]
  decide

/-! ## C8 — trait member extraction and ownership rewriting -/

/-- C8: extracting members from a used trait ancestor takes every property,
static property, method and static method with no private filtering, applying
`chown` to each; `chown` gives every private member and every non-synthesized
protected member to the child, and leaves synthesized protected members and
public members unchanged. -/
theorem trait_member_extraction_chown {E : Type} (substF : Subst → DeclTy → DeclTy)
    (reg : DeclName → DependencyName → Except E Unit)
    (child : ShallowClass) (parents : IndexMap TypeName FoldedClass)
    (pname : TypeName) (tyl : List TyArg) (pfd : FoldedClass)
    (hreg : ∀ d n, reg d n = Except.ok ())
    (hp : lookupIM parents pname = some pfd)
    (hkind : pfd.kind = ClassishKind.Ctrait) :
    (∃ deps, members_from_class substF reg child parents (DeclTy.classTy pname tyl) =
      Except.ok (deps,
        { substs :=
            insertIM pfd.substs pfd.name ⟨Subst.new pfd.tparams tyl, child.name, false⟩
          props := pfd.props.map (fun kv => (kv.1, chown kv.2 child.name))
          static_props := pfd.static_props.map (fun kv => (kv.1, chown kv.2 child.name))
          methods := pfd.methods.map (fun kv => (kv.1, chown kv.2 child.name))
          static_methods := pfd.static_methods.map (fun kv => (kv.1, chown kv.2 child.name))
          constructor := pfd.constructor
          consts :=
            pfd.consts.map
              (fun kv =>
                (kv.1, instantiate_class_const substF (Subst.new pfd.tparams tyl) kv.2))
          type_consts :=
            pfd.type_consts.map
              (fun kv =>
                (kv.1, instantiate_type_const substF (Subst.new pfd.tparams tyl) kv.2)) }))
    ∧ (∀ (elt : FoldedElement) (owner o : TypeName),
        elt.visibility = CeVisibility.VPrivate o →
        chown elt owner = { elt with visibility := CeVisibility.VPrivate owner })
    ∧ (∀ (elt : FoldedElement) (owner o : TypeName),
        elt.visibility = CeVisibility.VProtected o → elt.is_synthesized = false →
        chown elt owner = { elt with visibility := CeVisibility.VProtected owner })
    ∧ (∀ (elt : FoldedElement) (owner o : TypeName),
        elt.visibility = CeVisibility.VProtected o → elt.is_synthesized = true →
        chown elt owner = elt)
    ∧ (∀ (elt : FoldedElement) (owner : TypeName),
        elt.visibility = CeVisibility.VPublic → chown elt owner = elt) := by
  refine ⟨?_, ?_, ?_, ?_, ?_⟩
  · cases hh : pfd.pos.is_hhi
    · refine ⟨[(DeclName.TypeD child.name, DependencyName.Constructor pfd.name)], ?_⟩
      simp [members_from_class, DeclTy.unwrap_class_type, hp, hkind, hh, hreg]
    · refine ⟨[], ?_⟩
      simp [members_from_class, DeclTy.unwrap_class_type, hp, hkind, hh]
  · intro elt owner o h
    simp [chown, h]
  · intro elt owner o h hs
    simp [chown, h, hs]
  · intro elt owner o h hs
    simp [chown, h, hs]
  · intro elt owner h
    simp [chown, h]

/-- Identity stand-in for the external substitution engine, for concrete instances. -/
def substId : Subst → DeclTy → DeclTy := fun _ t => t

/-- An always-succeeding dependency registrar over a trivial error type. -/
def regOk : DeclName → DependencyName → Except Unit Unit := fun _ _ => Except.ok ()

/-- A concrete used trait holding one private property `p` owned by the trait. -/
def traitT0 : FoldedClass where
  name := "T0"
  kind := ClassishKind.Ctrait
  pos := ⟨false⟩
  tparams := []
  substs := []
  props := [("p", ⟨CeVisibility.VPrivate "T0", false, false, false, false, none⟩)]
  static_props := []
  methods := []
  static_methods := []
  constructor := ⟨none, ConsistentKind.Inconsistent⟩
  consts := []
  type_consts := []

/-- A concrete child class that uses `traitT0`. -/
def childW : ShallowClass where
  name := "Child"
  kind := ClassishKind.Cclass Abstraction.ConcreteK
  extends_ := []
  implements := []
  uses := [DeclTy.classTy "T0" []]
  req_extends := []
  req_implements := []
  xhp_attr_uses := []
  enum_type := none

/-- C8 witness: extracting `traitT0`'s members for `childW` yields its private
property `p` re-owned by the child. -/
theorem trait_member_extraction_chown_witness :
    ∃ deps,
      members_from_class substId regOk childW [("T0", traitT0)] (DeclTy.classTy "T0" []) =
        Except.ok (deps,
          { substs := [("T0", ⟨[], "Child", false⟩)]
            props := [("p", ⟨CeVisibility.VPrivate "Child", false, false, false, false, none⟩)]
            static_props := []
            methods := []
            static_methods := []
            constructor := ⟨none, ConsistentKind.Inconsistent⟩
            consts := []
            type_consts := [] }) := by
  obtain ⟨deps, hd⟩ :=
    (trait_member_extraction_chown substId regOk childW [("T0", traitT0)] "T0" [] traitT0
        (fun _ _ => rfl) rfl rfl).1
  refine ⟨deps, ?_⟩
  rw [hd]
  rfl

/-! ## C3 — requirements versus parent- and trait-provided methods -/

/-- A folded parent class `P` with an abstract, non-synthesized method `f`. -/
def classP : FoldedClass where
  name := "P"
  kind := ClassishKind.Cclass Abstraction.AbstractK
  pos := ⟨false⟩
  tparams := []
  substs := []
  props := []
  static_props := []
  methods := [("f", ⟨CeVisibility.VPublic, true, false, false, false, none⟩)]
  static_methods := []
  constructor := ⟨none, ConsistentKind.Inconsistent⟩
  consts := []
  type_consts := []

/-- A folded required-extends ancestor `Q` with a concrete method `f`. -/
def classQ : FoldedClass where
  name := "Q"
  kind := ClassishKind.Cclass Abstraction.ConcreteK
  pos := ⟨false⟩
  tparams := []
  substs := []
  props := []
  static_props := []
  methods := [("f", ⟨CeVisibility.VPublic, false, false, false, false, none⟩)]
  static_methods := []
  constructor := ⟨none, ConsistentKind.Inconsistent⟩
  consts := []
  type_consts := []

/-- A child that extends `P` and requires-extends `Q`, both contributing `f`. -/
def childPQ : ShallowClass where
  name := "C"
  kind := ClassishKind.Cclass Abstraction.ConcreteK
  extends_ := [DeclTy.classTy "P" []]
  implements := []
  uses := []
  req_extends := [DeclTy.classTy "Q" []]
  req_implements := []
  xhp_attr_uses := []
  enum_type := none

def parentsPQ : IndexMap TypeName FoldedClass := [("P", classP), ("Q", classQ)]

/-- C3 counterexample: folding `childPQ` over `parentsPQ` ends with `f` bound to
the required-extends ancestor `Q`'s concrete method, marked synthesized — not to
the directly-extended parent `P`'s abstract method. The requirement's method
*does* override the parent-provided method of the same name, because the
abstractness rule is checked before the synthesized tie-break. -/
theorem req_extends_method_overrides_parent :
    (Inherited.make substId regOk childPQ parentsPQ).map
        (fun inh => lookupIM inh.methods "f") =
      Except.ok (some ⟨CeVisibility.VPublic, false, true, false, false, none⟩)
    ∧ lookupIM classP.methods "f" =
        some ⟨CeVisibility.VPublic, true, false, false, false, none⟩
    ∧ ((⟨CeVisibility.VPublic, false, true, false, false, none⟩ : FoldedElement) ≠
        ⟨CeVisibility.VPublic, true, false, false, false, none⟩) := by
  refine ⟨rfl, rfl, by decide⟩

/-- C3 (amended): a required-extends ancestor's method never overrides a
trait-provided or directly-extended method of the same name, *provided the
abstractness rule does not prefer the requirement's method* (the requirement's
method must not be concrete while the resident one is abstract) and, for the
parent direction, the parent-provided method is not itself synthesized: a
parent-provided non-synthesized method of equal abstractness survives the
synthesized requirement, a parent-provided concrete method survives an abstract
requirement, and a trait method absorbed after a synthesized requirement method
replaces it. -/
theorem req_extends_override_protection (m : IndexMap MethodName FoldedElement)
    (k : MethodName) (old new : FoldedElement) :
    (lookupIM m k = some old → old.is_synthesized = false →
        old.is_abstract = new.is_abstract →
        Inherited.add_method m (k, new.set_is_synthesized true) = m)
    ∧ (lookupIM m k = some old → old.is_abstract = false → new.is_abstract = true →
        Inherited.add_method m (k, new.set_is_synthesized true) = m)
    ∧ (lookupIM m k = some old → old.is_synthesized = true →
        ¬(old.is_abstract = false ∧ new.is_abstract = true) →
        Inherited.add_method m (k, new) =
          insertIM m k { new with is_superfluous_override := false }) := by
  refine ⟨?_, ?_, ?_⟩
  · intro h hs hab
    cases hb : new.is_abstract <;> rw [hb] at hab <;>
      simp [Inherited.add_method, h, Inherited.should_keep_old_sig,
        FoldedElement.set_is_synthesized, hs, hab, hb]
  · intro h h1 h2
    simp [Inherited.add_method, h, Inherited.should_keep_old_sig,
      FoldedElement.set_is_synthesized, h1, h2]
  · intro h hs hab
    cases h1 : old.is_abstract <;> cases h2 : new.is_abstract <;>
      simp [h1, h2] at hab <;>
      simp [Inherited.add_method, h, Inherited.should_keep_old_sig, hs, h1, h2]

/-- C3 witness: a trait-provided concrete method replaces a synthesized
requirement method of the same name on a concrete occupied entry. -/
theorem req_extends_override_protection_witness :
    Inherited.add_method
        [(("f" : MethodName),
          (⟨CeVisibility.VPublic, false, true, false, false, none⟩ : FoldedElement))]
        ("f", ⟨CeVisibility.VPublic, false, false, false, false, none⟩) =
      [(("f" : MethodName),
        (⟨CeVisibility.VPublic, false, false, false, false, none⟩ : FoldedElement))] := by
  have h :=
    (req_extends_override_protection
        [(("f" : MethodName),
          (⟨CeVisibility.VPublic, false, true, false, false, none⟩ : FoldedElement))]
        "f" ⟨CeVisibility.VPublic, false, true, false, false, none⟩
        ⟨CeVisibility.VPublic, false, false, false, false, none⟩).2.2
      rfl rfl (by decide)
  rw [h]
  rfl

/-! ## C2 — the fixed absorption order of `make` -/

/-- Spec-side definition (written from the spec's words, for the refinement claim
about `make`'s order): abstract classes and traits gather `implements` then
`extends`, traits additionally `req_implements`, and every other kind gathers
only `extends`. -/
def spec_gathered_parents (child : ShallowClass) : List DeclTy :=
  if child.kind = ClassishKind.Ctrait then
    child.implements ++ child.extends_ ++ child.req_implements
  else if child.kind = ClassishKind.Cclass Abstraction.AbstractK then
    child.implements ++ child.extends_
  else
    child.extends_

/-- Spec-side definition (written from the spec's words) of the whole fold
pipeline: (1) parents, gathered kind-specifically and folded in reverse
declaration order; (2) `req_extends` requirements, marked synthesized;
(3) used traits; (4) `xhp_attr_uses`; (5) `req_implements` constants;
(6) included enums' constants; (7) `implements` constants — each step absorbing
into the running aggregate. -/
def makeSpec {E : Type} (substF : Subst → DeclTy → DeclTy)
    (reg : DeclName → DependencyName → Except E Unit)
    (child : ShallowClass) (parents : IndexMap TypeName FoldedClass) :
    Except E FoldSt := do
  let st1 ← foldAbsorb (members_from_class substF reg child parents) id
    ⟨Inherited.default, []⟩ (spec_gathered_parents child).reverse
  let st2 ← foldAbsorb (members_from_class substF reg child parents)
    Inherited.mark_as_synthesized st1 child.req_extends
  let st3 ← foldAbsorb (members_from_class substF reg child parents) id st2 child.uses
  let st4 ← foldAbsorb (xhp_attrs_from_class parents) id st3 child.xhp_attr_uses
  let st5 ← foldAbsorb (class_constants_from_class substF parents) id st4
    child.req_implements
  let st6 ←
    (match child.enum_type with
      | none => Except.ok st5
      | some et => foldAbsorb (class_constants_from_class substF parents) id st5 et.includes)
  let st7 ← foldAbsorb (class_constants_from_class substF parents) id st6 child.implements
  Except.ok st7

/-- C2: the instrumented `make` coincides with the spec-side pipeline on every
input: the same seven absorption steps, in the same fixed order, with the same
kind-specific parent gathering folded in reverse declaration order. -/
theorem make_absorption_order_spec {E : Type} (substF : Subst → DeclTy → DeclTy)
    (reg : DeclName → DependencyName → Except E Unit)
    (child : ShallowClass) (parents : IndexMap TypeName FoldedClass) :
    Inherited.make_traced substF reg child parents = makeSpec substF reg child parents := by
  have hg : parent_tys child = spec_gathered_parents child := by
    cases hk : child.kind with
    | Cclass a => cases a <;> simp [parent_tys, spec_gathered_parents, hk]
    | Cinterface => simp [parent_tys, spec_gathered_parents, hk]
    | Ctrait => simp [parent_tys, spec_gathered_parents, hk]
    | Cenum => simp [parent_tys, spec_gathered_parents, hk]
    | CenumClass a => simp [parent_tys, spec_gathered_parents, hk]
  unfold Inherited.make_traced makeSpec add_from_parents add_from_requirements
    add_from_traits add_from_xhp_attr_uses add_from_interface_constants
    add_from_included_enums_constants add_from_implements_constants
  rw [hg]

/-! ## Error-propagation lemmas for the folder -/

theorem except_bind_ok {E A B : Type} (a : A) (k : A → Except E B) :
    (Except.ok a >>= k) = k a := rfl

theorem bind_no_error {E A B : Type} (x : Except E A) (k : A → Except E B)
    (hx : ∀ e, x ≠ Except.error e) (hk : ∀ a e, k a ≠ Except.error e) (e : E) :
    (x >>= k) ≠ Except.error e := by
  cases x with
  | error e1 => exact absurd rfl (hx e1)
  | ok a => exact hk a e

theorem bind_error_cases {E A B : Type} (x : Except E A) (k : A → Except E B) (e : E)
    (h : (x >>= k) = Except.error e) :
    x = Except.error e ∨ ∃ a, x = Except.ok a ∧ k a = Except.error e := by
  cases x with
  | error e1 =>
      left
      have hb : (Except.error e1 >>= k) = (Except.error e1 : Except E B) := rfl
      rw [hb] at h
      injection h with h
      rw [h]
  | ok a => exact Or.inr ⟨a, rfl, h⟩

theorem class_constants_from_class_no_error {E : Type} (substF : Subst → DeclTy → DeclTy)
    (parents : IndexMap TypeName FoldedClass) (ty : DeclTy) (e : E) :
    class_constants_from_class substF parents ty ≠ Except.error e := by
  rcases ty with ⟨pname, tyl⟩ | _
  · cases hp : lookupIM parents pname <;>
      simp [class_constants_from_class, DeclTy.unwrap_class_type, hp]
  · simp [class_constants_from_class, DeclTy.unwrap_class_type]

theorem xhp_attrs_from_class_no_error {E : Type} (parents : IndexMap TypeName FoldedClass)
    (ty : DeclTy) (e : E) : xhp_attrs_from_class parents ty ≠ Except.error e := by
  rcases ty with ⟨pname, tyl⟩ | _
  · cases hp : lookupIM parents pname <;>
      simp [xhp_attrs_from_class, DeclTy.unwrap_class_type, hp]
  · simp [xhp_attrs_from_class, DeclTy.unwrap_class_type]

theorem members_from_class_no_error {E : Type} (substF : Subst → DeclTy → DeclTy)
    (reg : DeclName → DependencyName → Except E Unit)
    (child : ShallowClass) (parents : IndexMap TypeName FoldedClass)
    (hreg : ∀ d n, reg d n = Except.ok ()) (ty : DeclTy) (e : E) :
    members_from_class substF reg child parents ty ≠ Except.error e := by
  rcases ty with ⟨pname, tyl⟩ | _
  · cases hp : lookupIM parents pname with
    | none => simp [members_from_class, DeclTy.unwrap_class_type, hp]
    | some pfd =>
        cases hh : pfd.pos.is_hhi <;>
          simp [members_from_class, DeclTy.unwrap_class_type, hp, hh, hreg]
  · simp [members_from_class, DeclTy.unwrap_class_type]

theorem members_from_class_error {E : Type} (substF : Subst → DeclTy → DeclTy)
    (reg : DeclName → DependencyName → Except E Unit)
    (child : ShallowClass) (parents : IndexMap TypeName FoldedClass)
    (ty : DeclTy) (e : E)
    (h : members_from_class substF reg child parents ty = Except.error e) :
    ∃ d n, reg d n = Except.error e := by
  rcases ty with ⟨pname, tyl⟩ | _
  · cases hp : lookupIM parents pname with
    | none => simp [members_from_class, DeclTy.unwrap_class_type, hp] at h
    | some pfd =>
        cases hh : pfd.pos.is_hhi with
        | true => simp [members_from_class, DeclTy.unwrap_class_type, hp, hh] at h
        | false =>
            cases hr : reg (DeclName.TypeD child.name)
                (DependencyName.Constructor pfd.name) with
            | ok u =>
                simp [members_from_class, DeclTy.unwrap_class_type, hp, hh, hr] at h
            | error e1 =>
                refine ⟨DeclName.TypeD child.name, DependencyName.Constructor pfd.name, ?_⟩
                simp [members_from_class, DeclTy.unwrap_class_type, hp, hh, hr] at h
                rw [hr, h]
  · simp [members_from_class, DeclTy.unwrap_class_type] at h

theorem foldAbsorb_no_error {E : Type} (step : DeclTy → Except E (List DepEdge × Inherited))
    (post : Inherited → Inherited)
    (hstep : ∀ ty e, step ty ≠ Except.error e) :
    ∀ (tys : List DeclTy) (st : FoldSt) (e : E),
      foldAbsorb step post st tys ≠ Except.error e := by
  intro tys
  induction tys with
  | nil => intro st e h; simp [foldAbsorb] at h
  | cons ty tys ih =>
      intro st e h
      cases hs : step ty with
      | error e1 => exact hstep ty e1 hs
      | ok v =>
          obtain ⟨deps, inh⟩ := v
          simp only [foldAbsorb, hs] at h
          exact ih _ e h

theorem foldAbsorb_error {E : Type} (step : DeclTy → Except E (List DepEdge × Inherited))
    (post : Inherited → Inherited) :
    ∀ (tys : List DeclTy) (st : FoldSt) (e : E),
      foldAbsorb step post st tys = Except.error e →
      ∃ ty, ty ∈ tys ∧ step ty = Except.error e := by
  intro tys
  induction tys with
  | nil => intro st e h; simp [foldAbsorb] at h
  | cons ty tys ih =>
      intro st e h
      cases hs : step ty with
      | error e1 =>
          simp only [foldAbsorb, hs] at h
          injection h with h
          subst h
          exact ⟨ty, List.mem_cons_self ty tys, hs⟩
      | ok v =>
          obtain ⟨deps, inh⟩ := v
          simp only [foldAbsorb, hs] at h
          obtain ⟨ty2, hmem, hty2⟩ := ih _ e h
          exact ⟨ty2, List.mem_cons_of_mem _ hmem, hty2⟩

theorem add_from_parents_no_error {E : Type} (substF : Subst → DeclTy → DeclTy)
    (reg : DeclName → DependencyName → Except E Unit)
    (child : ShallowClass) (parents : IndexMap TypeName FoldedClass)
    (hreg : ∀ d n, reg d n = Except.ok ()) (st : FoldSt) (e : E) :
    add_from_parents substF reg child parents st ≠ Except.error e :=
  foldAbsorb_no_error _ _
    (members_from_class_no_error substF reg child parents hreg) _ st e

theorem add_from_requirements_no_error {E : Type} (substF : Subst → DeclTy → DeclTy)
    (reg : DeclName → DependencyName → Except E Unit)
    (child : ShallowClass) (parents : IndexMap TypeName FoldedClass)
    (hreg : ∀ d n, reg d n = Except.ok ()) (st : FoldSt) (e : E) :
    add_from_requirements substF reg child parents st ≠ Except.error e :=
  foldAbsorb_no_error _ _
    (members_from_class_no_error substF reg child parents hreg) _ st e

theorem add_from_traits_no_error {E : Type} (substF : Subst → DeclTy → DeclTy)
    (reg : DeclName → DependencyName → Except E Unit)
    (child : ShallowClass) (parents : IndexMap TypeName FoldedClass)
    (hreg : ∀ d n, reg d n = Except.ok ()) (st : FoldSt) (e : E) :
    add_from_traits substF reg child parents st ≠ Except.error e :=
  foldAbsorb_no_error _ _
    (members_from_class_no_error substF reg child parents hreg) _ st e

theorem add_from_xhp_attr_uses_no_error {E : Type}
    (parents : IndexMap TypeName FoldedClass) (child : ShallowClass)
    (st : FoldSt) (e : E) :
    add_from_xhp_attr_uses parents child st ≠ Except.error e :=
  foldAbsorb_no_error _ _ (fun ty e1 => xhp_attrs_from_class_no_error parents ty e1) _ st e

theorem add_from_interface_constants_no_error {E : Type}
    (substF : Subst → DeclTy → DeclTy) (parents : IndexMap TypeName FoldedClass)
    (child : ShallowClass) (st : FoldSt) (e : E) :
    add_from_interface_constants substF parents child st ≠ Except.error e :=
  foldAbsorb_no_error _ _
    (fun ty e1 => class_constants_from_class_no_error substF parents ty e1) _ st e

theorem add_from_implements_constants_no_error {E : Type}
    (substF : Subst → DeclTy → DeclTy) (parents : IndexMap TypeName FoldedClass)
    (child : ShallowClass) (st : FoldSt) (e : E) :
    add_from_implements_constants substF parents child st ≠ Except.error e :=
  foldAbsorb_no_error _ _
    (fun ty e1 => class_constants_from_class_no_error substF parents ty e1) _ st e

theorem add_from_included_enums_constants_no_error {E : Type}
    (substF : Subst → DeclTy → DeclTy) (parents : IndexMap TypeName FoldedClass)
    (child : ShallowClass) (st : FoldSt) (e : E) :
    add_from_included_enums_constants substF parents child st ≠ Except.error e := by
  unfold add_from_included_enums_constants
  cases he : child.enum_type with
  | none => simp
  | some et =>
      exact foldAbsorb_no_error _ _
        (fun ty e1 => class_constants_from_class_no_error substF parents ty e1) _ st e

theorem add_from_parents_error {E : Type} (substF : Subst → DeclTy → DeclTy)
    (reg : DeclName → DependencyName → Except E Unit)
    (child : ShallowClass) (parents : IndexMap TypeName FoldedClass)
    (st : FoldSt) (e : E)
    (h : add_from_parents substF reg child parents st = Except.error e) :
    ∃ d n, reg d n = Except.error e := by
  obtain ⟨ty, _, hty⟩ := foldAbsorb_error _ _ _ st e h
  exact members_from_class_error substF reg child parents ty e hty

theorem add_from_requirements_error {E : Type} (substF : Subst → DeclTy → DeclTy)
    (reg : DeclName → DependencyName → Except E Unit)
    (child : ShallowClass) (parents : IndexMap TypeName FoldedClass)
    (st : FoldSt) (e : E)
    (h : add_from_requirements substF reg child parents st = Except.error e) :
    ∃ d n, reg d n = Except.error e := by
  obtain ⟨ty, _, hty⟩ := foldAbsorb_error _ _ _ st e h
  exact members_from_class_error substF reg child parents ty e hty

theorem add_from_traits_error {E : Type} (substF : Subst → DeclTy → DeclTy)
    (reg : DeclName → DependencyName → Except E Unit)
    (child : ShallowClass) (parents : IndexMap TypeName FoldedClass)
    (st : FoldSt) (e : E)
    (h : add_from_traits substF reg child parents st = Except.error e) :
    ∃ d n, reg d n = Except.error e := by
  obtain ⟨ty, _, hty⟩ := foldAbsorb_error _ _ _ st e h
  exact members_from_class_error substF reg child parents ty e hty

theorem make_traced_no_error {E : Type} (substF : Subst → DeclTy → DeclTy)
    (reg : DeclName → DependencyName → Except E Unit)
    (child : ShallowClass) (parents : IndexMap TypeName FoldedClass)
    (hreg : ∀ d n, reg d n = Except.ok ()) (e : E) :
    Inherited.make_traced substF reg child parents ≠ Except.error e := by
  unfold Inherited.make_traced
  apply bind_no_error
  · exact add_from_parents_no_error substF reg child parents hreg _
  intro st1
  apply bind_no_error
  · exact add_from_requirements_no_error substF reg child parents hreg _
  intro st2
  apply bind_no_error
  · exact add_from_traits_no_error substF reg child parents hreg _
  intro st3
  apply bind_no_error
  · exact add_from_xhp_attr_uses_no_error parents child _
  intro st4
  apply bind_no_error
  · exact add_from_interface_constants_no_error substF parents child _
  intro st5
  apply bind_no_error
  · exact add_from_included_enums_constants_no_error substF parents child _
  intro st6
  apply bind_no_error
  · exact add_from_implements_constants_no_error substF parents child _
  intro st7 e7
  simp

theorem make_traced_error {E : Type} (substF : Subst → DeclTy → DeclTy)
    (reg : DeclName → DependencyName → Except E Unit)
    (child : ShallowClass) (parents : IndexMap TypeName FoldedClass) (e : E)
    (h : Inherited.make_traced substF reg child parents = Except.error e) :
    ∃ d n, reg d n = Except.error e := by
  unfold Inherited.make_traced at h
  rcases bind_error_cases _ _ _ h with h1 | ⟨st1, _, h⟩
  · exact add_from_parents_error substF reg child parents _ e h1
  rcases bind_error_cases _ _ _ h with h2 | ⟨st2, _, h⟩
  · exact add_from_requirements_error substF reg child parents _ e h2
  rcases bind_error_cases _ _ _ h with h3 | ⟨st3, _, h⟩
  · exact add_from_traits_error substF reg child parents _ e h3
  rcases bind_error_cases _ _ _ h with h4 | ⟨st4, _, h⟩
  · exact absurd h4 (add_from_xhp_attr_uses_no_error parents child _ e)
  rcases bind_error_cases _ _ _ h with h5 | ⟨st5, _, h⟩
  · exact absurd h5 (add_from_interface_constants_no_error substF parents child _ e)
  rcases bind_error_cases _ _ _ h with h6 | ⟨st6, _, h⟩
  · exact absurd h6 (add_from_included_enums_constants_no_error substF parents child _ e)
  rcases bind_error_cases _ _ _ h with h7 | ⟨st7, _, h⟩
  · exact absurd h7 (add_from_implements_constants_no_error substF parents child _ e)
  exact absurd h (by simp)

/-! ## C9 — the error taxonomy of `make` -/

/-- C9: `make` errors exactly when an invoked dependency-registrar call fails —
with an always-succeeding registrar it returns `ok`, and any returned error is
an error some registrar call returns (the `Except` result carries no partial
aggregate). A non-class reference, a missing ancestor entry, absent enum
metadata and an absent constructor element each contribute nothing (the empty
aggregate is absorbed as a no-op, the constructor element is left unchanged)
and are never errors. -/
theorem make_error_taxonomy {E : Type} (substF : Subst → DeclTy → DeclTy)
    (reg : DeclName → DependencyName → Except E Unit)
    (child : ShallowClass) (parents : IndexMap TypeName FoldedClass) :
    ((∀ d n, reg d n = Except.ok ()) →
        ∃ v, Inherited.make substF reg child parents = Except.ok v)
    ∧ (∀ e, Inherited.make substF reg child parents = Except.error e →
        ∃ d n, reg d n = Except.error e)
    ∧ (∀ ty, ty.unwrap_class_type = none →
        members_from_class substF reg child parents ty =
          Except.ok ([], Inherited.default))
    ∧ (∀ pname tyl, lookupIM parents pname = none →
        members_from_class substF reg child parents (DeclTy.classTy pname tyl) =
          Except.ok ([], Inherited.default))
    ∧ (child.enum_type = none → ∀ st : FoldSt,
        @add_from_included_enums_constants E substF parents child st = Except.ok st)
    ∧ (∀ st : Inherited, st.add_inherited Inherited.default = st)
    ∧ (∀ (self : Inherited) (c : Constructor), c.elt = none →
        (self.add_constructor c).constructor.elt = self.constructor.elt) := by
  refine ⟨?_, ?_, ?_, ?_, ?_, ?_, ?_⟩
  · intro hreg
    cases hm : Inherited.make_traced substF reg child parents with
    | error e =>
        exact absurd hm (make_traced_no_error substF reg child parents hreg e)
    | ok st =>
        exact ⟨st.members, by simp [Inherited.make, hm, Except.map]⟩
  · intro e h
    cases hm : Inherited.make_traced substF reg child parents with
    | error e1 =>
        rw [Inherited.make, hm] at h
        injection h with h
        rw [← h]
        exact make_traced_error substF reg child parents e1 hm
    | ok st => simp [Inherited.make, hm, Except.map] at h
  · intro ty hu
    cases ty with
    | classTy pname tyl => simp [DeclTy.unwrap_class_type] at hu
    | nonClassTy => simp [members_from_class, DeclTy.unwrap_class_type]
  · intro pname tyl h
    simp [members_from_class, DeclTy.unwrap_class_type, h]
  · intro he st
    simp [add_from_included_enums_constants, he]
  · intro st
    obtain ⟨ss, pp, sp, mm, sm, ⟨celt, ccons⟩, cc, tc⟩ := st
    cases ccons <;> rfl
  · intro self c hc
    cases hs : self.constructor.elt <;>
      simp [Inherited.add_constructor, hc, hs]

/-- C9 witness: on concrete inputs with an always-succeeding registrar, `make`
returns `ok`. -/
theorem make_error_taxonomy_witness :
    ∃ v, Inherited.make substId regOk childPQ parentsPQ = Except.ok v :=
  (make_error_taxonomy substId regOk childPQ parentsPQ).1 (fun _ _ => rfl)

/-! ## C10 — dependency recording -/

/-- Registrar-call count of one member extraction: one edge from the child type
to the ancestor's constructor for a non-hhi ancestor, none for an hhi one. -/
theorem members_from_class_deps {E : Type} (substF : Subst → DeclTy → DeclTy)
    (reg : DeclName → DependencyName → Except E Unit)
    (child : ShallowClass) (parents : IndexMap TypeName FoldedClass)
    (pname : TypeName) (tyl : List TyArg) (pfd : FoldedClass)
    (hreg : ∀ d n, reg d n = Except.ok ())
    (hp : lookupIM parents pname = some pfd) :
    (members_from_class substF reg child parents (DeclTy.classTy pname tyl)).map
        Prod.fst =
      Except.ok
        (if pfd.pos.is_hhi then ([] : List DepEdge)
         else [(DeclName.TypeD child.name, DependencyName.Constructor pfd.name)]) := by
  cases hh : pfd.pos.is_hhi <;>
    simp [members_from_class, DeclTy.unwrap_class_type, hp, hh, hreg, Except.map]

/-- C10: a child that extends exactly one ancestor present in the table (and has
no other relationships) triggers exactly one registrar call when the ancestor is
non-builtin — the trace is the single edge from the child type to the ancestor's
constructor — and none when the ancestor is builtin/hhi; the constants-only and
XHP-attribute extractions never record any dependency edge. -/
theorem make_dependency_recording {E : Type} (substF : Subst → DeclTy → DeclTy)
    (reg : DeclName → DependencyName → Except E Unit)
    (child : ShallowClass) (parents : IndexMap TypeName FoldedClass)
    (pname : TypeName) (tyl : List TyArg) (pfd : FoldedClass)
    (hreg : ∀ d n, reg d n = Except.ok ())
    (hext : child.extends_ = [DeclTy.classTy pname tyl])
    (himpl : child.implements = []) (huses : child.uses = [])
    (hreq : child.req_extends = []) (hreqi : child.req_implements = [])
    (hxhp : child.xhp_attr_uses = []) (henum : child.enum_type = none)
    (hp : lookupIM parents pname = some pfd)
    (hctor : pfd.constructor.elt.isSome = true) :
    (pfd.pos.is_hhi = false →
      (Inherited.make_traced substF reg child parents).map FoldSt.deps =
        Except.ok [(DeclName.TypeD child.name, DependencyName.Constructor pfd.name)])
    ∧ (pfd.pos.is_hhi = true →
      (Inherited.make_traced substF reg child parents).map FoldSt.deps =
        Except.ok ([] : List DepEdge))
    ∧ (∀ ty : DeclTy,
        (@class_constants_from_class E substF parents ty).map Prod.fst =
          Except.ok ([] : List DepEdge))
    ∧ (∀ ty : DeclTy,
        (@xhp_attrs_from_class E parents ty).map Prod.fst =
          Except.ok ([] : List DepEdge)) := by
  have hgather : parent_tys child = [DeclTy.classTy pname tyl] := by
    cases hk : child.kind with
    | Cclass a => cases a <;> simp [parent_tys, hk, himpl, hext]
    | Ctrait => simp [parent_tys, hk, himpl, hreqi, hext]
    | Cinterface => simp [parent_tys, hk, hext]
    | Cenum => simp [parent_tys, hk, hext]
    | CenumClass a => simp [parent_tys, hk, hext]
  have hmain : ∀ target : List DepEdge,
      (if pfd.pos.is_hhi then ([] : List DepEdge)
        else [(DeclName.TypeD child.name, DependencyName.Constructor pfd.name)]) = target →
      (Inherited.make_traced substF reg child parents).map FoldSt.deps =
        Except.ok target := by
    intro target htarget
    cases hm : members_from_class substF reg child parents (DeclTy.classTy pname tyl) with
    | error e =>
        exact absurd hm (members_from_class_no_error substF reg child parents hreg _ e)
    | ok v =>
        obtain ⟨deps, inh⟩ := v
        have hd := members_from_class_deps substF reg child parents pname tyl pfd hreg hp
        rw [hm] at hd
        simp only [Except.map] at hd
        injection hd with hd
        have h1 : add_from_parents substF reg child parents ⟨Inherited.default, []⟩ =
            Except.ok ⟨Inherited.default.add_inherited inh, deps⟩ := by
          simp [add_from_parents, hgather, foldAbsorb, hm]
        unfold Inherited.make_traced
        rw [h1, except_bind_ok]
        simp [add_from_requirements, hreq, add_from_traits, huses,
          add_from_xhp_attr_uses, hxhp, add_from_interface_constants, hreqi,
          add_from_included_enums_constants, henum, add_from_implements_constants,
          himpl, foldAbsorb, except_bind_ok, Except.map]
        rw [hd]
        exact htarget
  refine ⟨?_, ?_, ?_, ?_⟩
  · intro hh
    exact hmain _ (by rw [hh]; rfl)
  · intro hh
    exact hmain _ (by rw [hh]; rfl)
  · intro ty
    rcases ty with ⟨qname, qtyl⟩ | _
    · cases hq : lookupIM parents qname <;>
        simp [class_constants_from_class, DeclTy.unwrap_class_type, hq, Except.map]
    · simp [class_constants_from_class, DeclTy.unwrap_class_type, Except.map]
  · intro ty
    rcases ty with ⟨qname, qtyl⟩ | _
    · cases hq : lookupIM parents qname <;>
        simp [xhp_attrs_from_class, DeclTy.unwrap_class_type, hq, Except.map]
    · simp [xhp_attrs_from_class, DeclTy.unwrap_class_type, Except.map]

/-- A folded parent with a constructor element, for the dependency-recording
witness. -/
def classPCtor : FoldedClass :=
  { classP with
      constructor :=
        ⟨some ⟨CeVisibility.VPublic, false, false, false, false, none⟩,
          ConsistentKind.ConsistentConstruct⟩ }

/-- `childPQ` without its requirement: a child extending only `P`. -/
def childExt : ShallowClass := { childPQ with req_extends := [] }

/-- C10 witness: folding `childExt` over a table holding the non-hhi `classPCtor`
records exactly the edge from the child type to `P`'s constructor. -/
theorem make_dependency_recording_witness :
    (Inherited.make_traced substId regOk childExt [("P", classPCtor)]).map FoldSt.deps =
      Except.ok [(DeclName.TypeD "C", DependencyName.Constructor "P")] :=
  (make_dependency_recording substId regOk childExt [("P", classPCtor)] "P" [] classPCtor
      (fun _ _ => rfl) rfl rfl rfl rfl rfl rfl rfl rfl rfl).1 rfl

end Inherit
